import Mathlib

/-!
Verification of `src/image_generator.py` (blog-posts-generator).

The module wraps a remote image-generation service: it builds a prompt,
issues one request, scans the response parts for the first inline binary
image payload, decodes it, and writes a PNG file.  We embed the module
shallowly: the remote call, the PIL decode/re-encode step and the file
write are oracles supplied through an environment `Env`; the filesystem
and the outbound requests are threaded explicitly as a `Trace`.
Configuration (`GEMINI_API_KEY`, `IMAGE_MODEL`, `IMAGES_DIR` from the
external `config` module) is passed as an explicit `Config` record.
-/

namespace ImageGenerator

/-- A character kept by the slug regex `[^a-z0-9]+`: ASCII lowercase
letters and digits.  Everything else is part of a run replaced by `-`. -/
def isKept (c : Char) : Bool :=
  ('a' ≤ c && c ≤ 'z') || ('0' ≤ c && c ≤ '9')

/-- `re.sub(r'[^a-z0-9]+', '-', s)`: replace every maximal run of
non-kept characters by a single hyphen.  The flag records whether we are
currently inside such a run (so the hyphen is emitted only once). -/
def collapseAux : Bool → List Char → List Char
  | _, [] => []
  | inRun, c :: cs =>
    if isKept c then c :: collapseAux false cs
    else if inRun then collapseAux true cs
    else '-' :: collapseAux true cs

/-- Remove a trailing run of hyphens (the right half of `.strip('-')`). -/
def dropTrailingHyphens : List Char → List Char
  | [] => []
  | c :: cs =>
    match dropTrailingHyphens cs with
    | [] => if c = '-' then [] else [c]
    | d :: ds => c :: d :: ds

/-- `.strip('-')`: drop leading and trailing runs of hyphens. -/
def stripHyphens (l : List Char) : List Char :=
  dropTrailingHyphens (l.dropWhile (fun c => c = '-'))

/-- Line 113 of the source:
`re.sub(r'[^a-z0-9]+', '-', topic.lower()).strip('-')[:30]`.
`Char.toLower` lowercases ASCII letters, matching Python `str.lower`
on ASCII input; non-ASCII characters are replaced by the regex either
way, since after lowercasing they are still outside `[a-z0-9]`. -/
def slugify (t : String) : String :=
  String.mk ((stripHyphens (collapseAux false (t.data.map Char.toLower))).take 30)

/-- No two adjacent hyphens anywhere in the list. -/
def noDoubleHyphen : List Char → Bool
  | [] => true
  | [_] => true
  | a :: b :: rest => !(a == '-' && b == '-') && noDoubleHyphen (b :: rest)

theorem isKept_ne_hyphen {c : Char} (h : isKept c = true) : c ≠ '-' := by
  rintro rfl
  simp [isKept] at h

theorem mem_collapseAux {c : Char} :
    ∀ (b : Bool) (cs : List Char), c ∈ collapseAux b cs →
      isKept c = true ∨ c = '-' := by
  intro b cs
  induction cs generalizing b with
  | nil => simp [collapseAux]
  | cons x xs ih =>
    intro hmem
    by_cases hx : isKept x = true
    · simp only [collapseAux, hx, if_true] at hmem
      rcases List.mem_cons.mp hmem with h | h
      · exact Or.inl (h ▸ hx)
      · exact ih false h
    · simp only [collapseAux, hx, if_false, Bool.false_eq_true] at hmem
      cases b with
      | true => exact ih true hmem
      | false =>
        rcases List.mem_cons.mp hmem with h | h
        · exact Or.inr h
        · exact ih true h

/-- `collapseAux true` never starts with a hyphen: the run currently
being skipped has already emitted its hyphen. -/
theorem collapseAux_true_head :
    ∀ cs : List Char, collapseAux true cs = [] ∨
      ∃ c cs', collapseAux true cs = c :: cs' ∧ isKept c = true := by
  intro cs
  induction cs with
  | nil => exact Or.inl rfl
  | cons x xs ih =>
    by_cases hx : isKept x = true
    · exact Or.inr ⟨x, collapseAux false xs, by simp [collapseAux, hx], hx⟩
    · simpa [collapseAux, hx] using ih

theorem noDoubleHyphen_collapseAux :
    ∀ (b : Bool) (cs : List Char), noDoubleHyphen (collapseAux b cs) = true := by
  intro b cs
  induction cs generalizing b with
  | nil => simp [collapseAux, noDoubleHyphen]
  | cons x xs ih =>
    by_cases hx : isKept x = true
    · have hxh : (x == '-') = false := by
        simpa using isKept_ne_hyphen hx
      simp only [collapseAux, hx, if_true]
      cases he : collapseAux false xs with
      | nil => simp [noDoubleHyphen]
      | cons y ys =>
        have hy := ih false
        rw [he] at hy
        simp [noDoubleHyphen, hxh, hy]
    · simp only [collapseAux, hx, if_false, Bool.false_eq_true]
      cases b with
      | true => exact ih true
      | false =>
        rcases collapseAux_true_head xs with he | ⟨y, ys, he, hky⟩
        · simp [he, noDoubleHyphen]
        · have hyh : (y == '-') = false := by
            simpa using isKept_ne_hyphen hky
          have hy := ih true
          rw [he] at hy ⊢
          simp [noDoubleHyphen, hyh, hy]

theorem noDoubleHyphen_append_left :
    ∀ (a b : List Char), noDoubleHyphen (a ++ b) = true →
      noDoubleHyphen a = true := by
  intro a
  induction a with
  | nil => intro b _; rfl
  | cons x xs ih =>
    intro b h
    cases xs with
    | nil => rfl
    | cons y ys =>
      simp only [List.cons_append, noDoubleHyphen, Bool.and_eq_true] at h ⊢
      exact ⟨h.1, ih b h.2⟩

theorem noDoubleHyphen_tail {c : Char} {l : List Char}
    (h : noDoubleHyphen (c :: l) = true) : noDoubleHyphen l = true := by
  cases l with
  | nil => rfl
  | cons y ys =>
    simp only [noDoubleHyphen, Bool.and_eq_true] at h
    exact h.2

theorem noDoubleHyphen_append_right :
    ∀ (a b : List Char), noDoubleHyphen (a ++ b) = true →
      noDoubleHyphen b = true := by
  intro a
  induction a with
  | nil => intro b h; exact h
  | cons x xs ih =>
    intro b h
    exact ih b (noDoubleHyphen_tail h)

theorem noDoubleHyphen_dropWhile (p : Char → Bool) (l : List Char)
    (h : noDoubleHyphen l = true) :
    noDoubleHyphen (l.dropWhile p) = true := by
  rcases (List.dropWhile_suffix p (l := l)) with ⟨t, ht⟩
  rw [← ht] at h
  exact noDoubleHyphen_append_right t _ h

/-- `dropTrailingHyphens` only removes a suffix. -/
theorem dropTrailingHyphens_prefix :
    ∀ l : List Char, ∃ t, dropTrailingHyphens l ++ t = l := by
  intro l
  induction l with
  | nil => exact ⟨[], rfl⟩
  | cons c cs ih =>
    rcases ih with ⟨t, ht⟩
    cases he : dropTrailingHyphens cs with
    | nil =>
      by_cases hc : c = '-'
      · exact ⟨c :: cs, by simp [dropTrailingHyphens, he, hc]⟩
      · refine ⟨cs, ?_⟩
        rw [he] at ht
        simp only [List.nil_append] at ht
        simp [dropTrailingHyphens, he, hc, ht]
    | cons d ds =>
      refine ⟨t, ?_⟩
      rw [he] at ht
      simp [dropTrailingHyphens, he, ht]

theorem noDoubleHyphen_dropTrailingHyphens {l : List Char}
    (h : noDoubleHyphen l = true) :
    noDoubleHyphen (dropTrailingHyphens l) = true := by
  rcases dropTrailingHyphens_prefix l with ⟨t, ht⟩
  rw [← ht] at h
  exact noDoubleHyphen_append_left _ t h

theorem noDoubleHyphen_take (n : ℕ) {l : List Char}
    (h : noDoubleHyphen l = true) :
    noDoubleHyphen (l.take n) = true := by
  rw [← List.take_append_drop n l] at h
  exact noDoubleHyphen_append_left _ (l.drop n) h

/-- The first character surviving `dropWhile p` fails `p`. -/
theorem dropWhile_head_false (p : Char → Bool) :
    ∀ (l : List Char) (c : Char) (cs : List Char),
      l.dropWhile p = c :: cs → p c = false := by
  intro l
  induction l with
  | nil => intro c cs h; simp [List.dropWhile] at h
  | cons x xs ih =>
    intro c cs h
    by_cases hx : p x = true
    · rw [List.dropWhile_cons_of_pos hx] at h
      exact ih c cs h
    · rw [List.dropWhile_cons_of_neg hx] at h
      cases h
      exact Bool.eq_false_iff.mpr hx

theorem take_head {α : Type} {n : ℕ} {l : List α} {c : α} {cs : List α}
    (h : l.take n = c :: cs) : ∃ ds, l = c :: ds := by
  cases n with
  | zero => simp at h
  | succ m =>
    cases l with
    | nil => simp at h
    | cons x xs =>
      simp only [List.take_succ_cons] at h
      injection h with h1 _
      exact ⟨xs, by rw [h1]⟩

theorem prefix_head {α : Type} {l t : List α} {c : α} {cs ds : List α}
    (ht : l ++ t = cs) (hl : l = c :: ds) : ∃ es, cs = c :: es :=
  ⟨ds ++ t, by rw [← ht, hl]; rfl⟩

theorem mem_dropTrailingHyphens {c : Char} {l : List Char}
    (h : c ∈ dropTrailingHyphens l) : c ∈ l := by
  rcases dropTrailingHyphens_prefix l with ⟨t, ht⟩
  rw [← ht]
  exact List.mem_append_left t h

/-- Every character of the slug is a kept character or a hyphen. -/
theorem slugify_mem {c : Char} (t : String) (h : c ∈ (slugify t).data) :
    isKept c = true ∨ c = '-' := by
  simp only [slugify] at h
  have h1 : c ∈ stripHyphens (collapseAux false (t.data.map Char.toLower)) :=
    (List.take_sublist 30 _).mem h
  have h2 : c ∈ (collapseAux false (t.data.map Char.toLower)).dropWhile
      (fun c => c = '-') := mem_dropTrailingHyphens h1
  have h3 : c ∈ collapseAux false (t.data.map Char.toLower) :=
    (List.dropWhile_sublist _).mem h2
  exact mem_collapseAux false _ h3

/-- The slug never carries two adjacent hyphens. -/
theorem slugify_noDoubleHyphen (t : String) :
    noDoubleHyphen (slugify t).data = true := by
  simp only [slugify]
  exact noDoubleHyphen_take 30
    (noDoubleHyphen_dropTrailingHyphens
      (noDoubleHyphen_dropWhile _ _ (noDoubleHyphen_collapseAux false _)))

/-- The slug never starts with a hyphen. -/
theorem slugify_head (t : String) : (slugify t).data.head? ≠ some '-' := by
  intro hcontra
  have hd : ∃ cs, (slugify t).data = '-' :: cs := by
    cases hh : (slugify t).data with
    | nil => rw [hh] at hcontra; simp at hcontra
    | cons x xs =>
      rw [hh] at hcontra
      simp only [List.head?_cons, Option.some.injEq] at hcontra
      exact ⟨xs, by rw [hcontra]⟩
  rcases hd with ⟨cs, hd⟩
  simp only [slugify] at hd
  rcases take_head hd with ⟨ds, hds⟩
  rcases dropTrailingHyphens_prefix
    ((collapseAux false (t.data.map Char.toLower)).dropWhile
      (fun c => c = '-')) with ⟨u, hu⟩
  rcases prefix_head hu hds with ⟨es, hes⟩
  have := dropWhile_head_false (fun c => c = '-') _ _ _ hes
  simp at this

/-- The slug is at most 30 characters long. -/
theorem slugify_length (t : String) : (slugify t).length ≤ 30 := by
  have h : (slugify t).length
      = ((stripHyphens (collapseAux false (t.data.map Char.toLower))).take
          30).length := rfl
  rw [h, List.length_take]
  exact min_le_left _ _

/-! ## Data model of the request/response exchange

`Part`, `Content`, `Candidate`, `Response` mirror the SDK objects the
source reads: `response.candidates[0].content.parts`, and on each part
the optional `inline_data` carrying raw image bytes.  Python truthiness
of `part.inline_data` is modelled as: present and non-empty payload. -/

/-- The inline binary payload of a response part (`part.inline_data`),
holding the raw image bytes (`.data`). -/
structure Blob where
  data : List Nat
deriving DecidableEq, Repr

/-- One response part: optionally carries inline binary data. -/
structure Part where
  inline_data : Option Blob
deriving DecidableEq, Repr

structure Content where
  parts : List Part
deriving DecidableEq, Repr

structure Candidate where
  content : Content
deriving DecidableEq, Repr

structure Response where
  candidates : List Candidate
deriving DecidableEq, Repr

/-- Configuration from the external `config` module: `GEMINI_API_KEY`,
`IMAGE_MODEL`, `IMAGES_DIR`.  A missing or empty key is modelled as the
empty string (Python falsiness of `None` and `""`). -/
structure Config where
  apiKey : String
  imageModel : String
  imagesDir : String
deriving DecidableEq, Repr

/-- An exception arising inside the `try` block of `generate_image`:
during the network call, the PIL decode, or the file write. -/
inductive GenError
  | network
  | decode
  | write
deriving DecidableEq, Repr

/-- Oracles for the effectful steps: `net` is the remote
`client.models.generate_content` call applied to the outbound prompt
text (returning a response or raising), `decode` is the
`Image.open` + re-encode-as-PNG pipeline on the raw bytes, and
`writeOk` tells whether the file write succeeds. -/
structure Env where
  net : String → Except GenError Response
  decode : List Nat → Except GenError (List Nat)
  writeOk : Bool

/-- Observable effects threaded through a call: the prompt texts of the
outbound requests that were issued, and the files written (path ↦ bytes). -/
structure Trace where
  requests : List String
  files : List (String × List Nat)
deriving DecidableEq, Repr

/-- `get_client` (lines 18–22): raise a `ValueError` if the API key is
falsy, otherwise return a client handle.  Runs before the `try` block. -/
def get_client (cfg : Config) : Except String Config :=
  if cfg.apiKey = "" then
    Except.error "GEMINI_API_KEY not found. Please set it in your .env file."
  else Except.ok cfg

/-- The fixed wrapper of `generate_image` (lines 44–54): the outbound
prompt embeds the caller's prompt inside the style template. -/
def full_prompt (style prompt : String) : String :=
  "Create a " ++ style ++ " for a Finnish language learning blog.\n\nImage description: " ++ prompt ++ "\n\nRequirements:\n- Clean, professional design suitable for educational content\n- Warm, inviting colors (consider Finnish nature: blues, greens, whites)\n- No text in the image (text will be added separately)\n- Simple composition that works well as a blog header\n- Modern, minimalist aesthetic\n"

/-- The loop condition of line 67,
`hasattr(part, 'inline_data') and part.inline_data`: the field is
present and truthy; its payload, when so. -/
def partImageData (p : Part) : Option (List Nat) :=
  match p.inline_data with
  | some b => if b.data.isEmpty then none else some b.data
  | none => none

/-- A part the loop treats as image-bearing. -/
def partHasImage (p : Part) : Bool :=
  (partImageData p).isSome

/-- The scan of lines 66–78: first part with truthy inline data. -/
def findImagePart : List Part → Option (List Nat)
  | [] => none
  | p :: ps =>
    match partImageData p with
    | some d => some d
    | none => findImagePart ps

def defaultStyle : String := "modern flat illustration"

/-- `generate_image` (lines 25–85).  `get_client` runs before the `try`
block, so a configuration error propagates; every exception inside the
block (network, `candidates[0]` access, decode, write) is caught and
collapsed to `none`.  The result pairs the caught-or-raised outcome
with the updated trace. -/
def generate_image (env : Env) (cfg : Config)
    (prompt filename style : String) (tr : Trace) :
    Except String (Option String) × Trace :=
  match get_client cfg with
  | Except.error e => (Except.error e, tr)
  | Except.ok _ =>
    let fp := full_prompt style prompt
    let tr1 : Trace := { tr with requests := tr.requests ++ [fp] }
    match env.net fp with
    | Except.error _ => (Except.ok none, tr1)
    | Except.ok response =>
      match response.candidates with
      | [] => (Except.ok none, tr1)
      | cand :: _ =>
        match findImagePart cand.content.parts with
        | none => (Except.ok none, tr1)
        | some data =>
          match env.decode data with
          | Except.error _ => (Except.ok none, tr1)
          | Except.ok png =>
            let path := cfg.imagesDir ++ "/" ++ filename ++ ".png"
            if env.writeOk then
              (Except.ok (some path),
               { tr1 with files := tr1.files ++ [(path, png)] })
            else (Except.ok none, tr1)

/-- The default prompt of lines 108–110, synthesized when no custom
prompt is supplied (trailing spaces as in the source). -/
def default_header_prompt (topic : String) : String :=
  "A warm, inviting illustration representing \"" ++ topic ++ "\" \n        for Finnish language learners. The scene should evoke Finland\x27s \n        culture and lifestyle while being educational and approachable."

/-- The prompt choice of lines 104–110: `if custom_prompt:` is Python
truthiness, so an empty custom prompt falls back to the default. -/
def header_prompt (topic : String) (custom_prompt : Option String) : String :=
  match custom_prompt with
  | some cp => if cp = "" then default_header_prompt topic else cp
  | none => default_header_prompt topic

/-- `generate_blog_header_image` (lines 88–116). -/
def generate_blog_header_image (env : Env) (cfg : Config)
    (topic date : String) (custom_prompt : Option String) (tr : Trace) :
    Except String (Option String) × Trace :=
  let prompt := header_prompt topic custom_prompt
  let slug := slugify topic
  let filename := date ++ "-" ++ slug
  generate_image env cfg prompt filename defaultStyle tr

/-- The vocabulary prompt of lines 135–138 (trailing spaces as in the
source). -/
def vocab_prompt (finnish_word english_translation : String) : String :=
  "A simple, clean illustration representing the Finnish word \"" ++ finnish_word ++ "\" \n    (meaning \"" ++ english_translation ++ "\" in English). \n    The image should be iconic and memorable, helping learners associate \n    the visual with the word. No text should be in the image."

/-- Python `str.lower()` as used on line 140, character by character.
`Char.toLower` lowercases the ASCII range, agreeing with Python there. -/
def str_lower (s : String) : String :=
  String.mk (s.data.map Char.toLower)

/-- `generate_vocabulary_card_image` (lines 119–142). -/
def generate_vocabulary_card_image (env : Env) (cfg : Config)
    (finnish_word english_translation date : String) (tr : Trace) :
    Except String (Option String) × Trace :=
  let prompt := vocab_prompt finnish_word english_translation
  let filename := date ++ "-vocab-" ++ str_lower finnish_word
  generate_image env cfg prompt filename "simple icon illustration" tr

/-! ## Concrete fixtures used by witnesses and counterexamples -/

def cfg0 : Config :=
  { apiKey := "test-key", imageModel := "gemini", imagesDir := "images" }

def cfgNoKey : Config :=
  { apiKey := "", imageModel := "gemini", imagesDir := "images" }

def tr0 : Trace := { requests := [], files := [] }

/-- A text-only part: no `inline_data` attribute / a `None` field. -/
def textPart : Part := { inline_data := none }

/-- A part whose `inline_data` is present but has an empty payload
(falsy in Python). -/
def emptyBlobPart : Part := { inline_data := some { data := [] } }

/-- A part carrying actual image bytes. -/
def imagePart : Part := { inline_data := some { data := [137, 80, 78, 71] } }

def cand0 : Candidate := { content := { parts := [textPart, imagePart] } }

def respWithImage : Response := { candidates := [cand0] }

def respNoImage : Response :=
  { candidates := [{ content := { parts := [textPart, emptyBlobPart] } }] }

/-- An environment in which every effect fails: the network call raises,
and so would decode and write. -/
def envErr : Env :=
  { net := fun _ => Except.error GenError.network,
    decode := fun _ => Except.error GenError.decode,
    writeOk := false }

/-- An environment whose response carries no truthy image part. -/
def envNoImage : Env :=
  { net := fun _ => Except.ok respNoImage,
    decode := fun b => Except.ok b,
    writeOk := true }

/-- A fully successful environment: the response carries an image part,
the decode/re-encode step prepends a marker byte, the write succeeds. -/
def envOk : Env :=
  { net := fun _ => Except.ok respWithImage,
    decode := fun b => Except.ok (0 :: b),
    writeOk := true }

/-! ## Helper lemmas about the embedded functions -/

theorem get_client_ok {cfg : Config} (h : cfg.apiKey ≠ "") :
    get_client cfg = Except.ok cfg := by
  simp [get_client, h]

theorem partHasImage_false_iff {p : Part} :
    partHasImage p = false ↔ partImageData p = none := by
  unfold partHasImage
  cases partImageData p <;> simp

theorem findImagePart_eq_none {parts : List Part}
    (h : ∀ p ∈ parts, partHasImage p = false) :
    findImagePart parts = none := by
  induction parts with
  | nil => rfl
  | cons q qs ih =>
    have hq : partImageData q = none :=
      partHasImage_false_iff.mp (h q (List.mem_cons_self q qs))
    simp only [findImagePart, hq]
    exact ih (fun p hp => h p (List.mem_cons_of_mem q hp))

theorem findImagePart_first {l1 : List Part} {p : Part} {l2 : List Part}
    {d : List Nat} (hl1 : ∀ q ∈ l1, partHasImage q = false)
    (hp : partImageData p = some d) :
    findImagePart (l1 ++ p :: l2) = some d := by
  induction l1 with
  | nil => simp [findImagePart, hp]
  | cons q qs ih =>
    have hq : partImageData q = none :=
      partHasImage_false_iff.mp (hl1 q (List.mem_cons_self q qs))
    simp only [List.cons_append, findImagePart, hq]
    exact ih (fun r hr => hl1 r (List.mem_cons_of_mem q hr))

/-! ## Claims -/

/-- C4: if the API key is absent or empty, client construction fails at
once with the configuration `ValueError`; `get_client` runs before the
`try` block of `generate_image`, so the error propagates to the caller
uncaught, and the trace is untouched — in particular no outbound
request was issued and no file written. -/
theorem C4_missing_key (env : Env) (cfg : Config)
    (prompt filename style : String) (tr : Trace) (h : cfg.apiKey = "") :
    get_client cfg
      = Except.error "GEMINI_API_KEY not found. Please set it in your .env file."
    ∧ generate_image env cfg prompt filename style tr
      = (Except.error "GEMINI_API_KEY not found. Please set it in your .env file.",
         tr) := by
  have hc : get_client cfg
      = Except.error "GEMINI_API_KEY not found. Please set it in your .env file." := by
    simp [get_client, h]
  exact ⟨hc, by simp only [generate_image, hc]⟩

/-- Witness for C4 at the concrete empty-key configuration. -/
theorem C4_missing_key_witness :
    generate_image envErr cfgNoKey "p" "f" defaultStyle tr0
      = (Except.error "GEMINI_API_KEY not found. Please set it in your .env file.",
         tr0) :=
  (C4_missing_key envErr cfgNoKey "p" "f" defaultStyle tr0 rfl).2

/-- C3: with a configured key, no exception from the `try` block ever
propagates: the call always returns an `Except.ok` outcome; whenever the
outcome is absent the filesystem is untouched; a network exception, a
universally failing decode, or a failing write each collapse to the same
absent result. -/
theorem C3_exceptions_soft (env : Env) (cfg : Config)
    (prompt filename style : String) (tr : Trace) (h : cfg.apiKey ≠ "") :
    (∃ r, (generate_image env cfg prompt filename style tr).1 = Except.ok r)
    ∧ ((generate_image env cfg prompt filename style tr).1 = Except.ok none →
        (generate_image env cfg prompt filename style tr).2.files = tr.files)
    ∧ (∀ e, env.net (full_prompt style prompt) = Except.error e →
        generate_image env cfg prompt filename style tr
          = (Except.ok none,
             { requests := tr.requests ++ [full_prompt style prompt],
               files := tr.files }))
    ∧ ((∀ d png, env.decode d ≠ Except.ok png) →
        (generate_image env cfg prompt filename style tr).1 = Except.ok none)
    ∧ (env.writeOk = false →
        (generate_image env cfg prompt filename style tr).1 = Except.ok none) := by
  have hc := get_client_ok h
  refine ⟨?_, ?_, ?_, ?_, ?_⟩
  · cases hnet : env.net (full_prompt style prompt) with
    | error e => exact ⟨none, by simp [generate_image, hc, hnet]⟩
    | ok resp =>
      cases hcand : resp.candidates with
      | nil => exact ⟨none, by simp [generate_image, hc, hnet, hcand]⟩
      | cons cand rest =>
        cases hfind : findImagePart cand.content.parts with
        | none => exact ⟨none, by simp [generate_image, hc, hnet, hcand, hfind]⟩
        | some d =>
          cases hdec : env.decode d with
          | error e =>
            exact ⟨none, by simp [generate_image, hc, hnet, hcand, hfind, hdec]⟩
          | ok png =>
            cases hw : env.writeOk with
            | false =>
              exact ⟨none,
                by simp [generate_image, hc, hnet, hcand, hfind, hdec, hw]⟩
            | true =>
              exact ⟨some (cfg.imagesDir ++ "/" ++ filename ++ ".png"),
                by simp [generate_image, hc, hnet, hcand, hfind, hdec, hw]⟩
  · intro hnone
    cases hnet : env.net (full_prompt style prompt) with
    | error e => simp [generate_image, hc, hnet]
    | ok resp =>
      cases hcand : resp.candidates with
      | nil => simp [generate_image, hc, hnet, hcand]
      | cons cand rest =>
        cases hfind : findImagePart cand.content.parts with
        | none => simp [generate_image, hc, hnet, hcand, hfind]
        | some d =>
          cases hdec : env.decode d with
          | error e => simp [generate_image, hc, hnet, hcand, hfind, hdec]
          | ok png =>
            cases hw : env.writeOk with
            | false => simp [generate_image, hc, hnet, hcand, hfind, hdec, hw]
            | true =>
              exfalso
              simp [generate_image, hc, hnet, hcand, hfind, hdec, hw] at hnone
  · intro e hnet
    simp [generate_image, hc, hnet]
  · intro hdec
    cases hnet : env.net (full_prompt style prompt) with
    | error e => simp [generate_image, hc, hnet]
    | ok resp =>
      cases hcand : resp.candidates with
      | nil => simp [generate_image, hc, hnet, hcand]
      | cons cand rest =>
        cases hfind : findImagePart cand.content.parts with
        | none => simp [generate_image, hc, hnet, hcand, hfind]
        | some d =>
          cases hd : env.decode d with
          | error e => simp [generate_image, hc, hnet, hcand, hfind, hd]
          | ok png => exact absurd hd (hdec d png)
  · intro hw
    cases hnet : env.net (full_prompt style prompt) with
    | error e => simp [generate_image, hc, hnet]
    | ok resp =>
      cases hcand : resp.candidates with
      | nil => simp [generate_image, hc, hnet, hcand]
      | cons cand rest =>
        cases hfind : findImagePart cand.content.parts with
        | none => simp [generate_image, hc, hnet, hcand, hfind]
        | some d =>
          cases hd : env.decode d with
          | error e => simp [generate_image, hc, hnet, hcand, hfind, hd]
          | ok png => simp [generate_image, hc, hnet, hcand, hfind, hd, hw]

/-- Witness for C3: a network exception at a concrete call collapses to
an absent result. -/
theorem C3_exceptions_soft_witness :
    generate_image envErr cfg0 "A red fox" "f" defaultStyle tr0
      = (Except.ok none,
         { requests := [full_prompt defaultStyle "A red fox"], files := [] }) :=
  (C3_exceptions_soft envErr cfg0 "A red fox" "f" defaultStyle tr0
    (by decide)).2.2.1 GenError.network rfl

/-- C5: when the network call succeeds but no response part carries
truthy inline binary data, the call returns an absent result and writes
no file (the trace gains the outbound request and nothing else). -/
theorem C5_no_image_parts (env : Env) (cfg : Config)
    (prompt filename style : String) (tr : Trace) (resp : Response)
    (h : cfg.apiKey ≠ "")
    (hnet : env.net (full_prompt style prompt) = Except.ok resp)
    (hparts : ∀ c ∈ resp.candidates, ∀ p ∈ c.content.parts,
      partHasImage p = false) :
    generate_image env cfg prompt filename style tr
      = (Except.ok none,
         { requests := tr.requests ++ [full_prompt style prompt],
           files := tr.files }) := by
  have hc := get_client_ok h
  cases hcand : resp.candidates with
  | nil => simp [generate_image, hc, hnet, hcand]
  | cons cand rest =>
    have hfind : findImagePart cand.content.parts = none := by
      refine findImagePart_eq_none (fun p hp => ?_)
      exact hparts cand (by rw [hcand]; exact List.mem_cons_self cand rest) p hp
    simp [generate_image, hc, hnet, hcand, hfind]

/-- Witness for C5: a concrete response holding only a text part and a
part with an empty payload yields an absent result and no file. -/
theorem C5_no_image_parts_witness :
    generate_image envNoImage cfg0 "p" "f" defaultStyle tr0
      = (Except.ok none,
         { requests := [full_prompt defaultStyle "p"], files := [] }) :=
  C5_no_image_parts envNoImage cfg0 "p" "f" defaultStyle tr0 respNoImage
    (by decide) rfl (by decide)

/-- C6: when the first candidate's parts split as `l1 ++ p :: l2` with
nothing image-bearing in `l1` and `p` carrying bytes `d`, the call uses
`p` alone: it writes exactly one file at `<images_dir>/<stem>.png`
holding the decoded bytes of `d` and returns that path.  The tail `l2`
is arbitrary and absent from the result, so every later part is
ignored. -/
theorem C6_first_image_part (env : Env) (cfg : Config)
    (prompt filename style : String) (tr : Trace) (resp : Response)
    (cand : Candidate) (rest : List Candidate)
    (l1 : List Part) (p : Part) (l2 : List Part) (d png : List Nat)
    (h : cfg.apiKey ≠ "")
    (hnet : env.net (full_prompt style prompt) = Except.ok resp)
    (hcand : resp.candidates = cand :: rest)
    (hparts : cand.content.parts = l1 ++ p :: l2)
    (hl1 : ∀ q ∈ l1, partHasImage q = false)
    (hp : partImageData p = some d)
    (hdec : env.decode d = Except.ok png)
    (hw : env.writeOk = true) :
    generate_image env cfg prompt filename style tr
      = (Except.ok (some (cfg.imagesDir ++ "/" ++ filename ++ ".png")),
         { requests := tr.requests ++ [full_prompt style prompt],
           files := tr.files
             ++ [(cfg.imagesDir ++ "/" ++ filename ++ ".png", png)] }) := by
  have hc := get_client_ok h
  have hfind : findImagePart cand.content.parts = some d := by
    rw [hparts]
    exact findImagePart_first hl1 hp
  simp [generate_image, hc, hnet, hcand, hfind, hdec, hw]

/-- Witness for C6: a concrete response whose second part is the first
image-bearing one produces exactly the expected file and path. -/
theorem C6_first_image_part_witness :
    generate_image envOk cfg0 "p" "f" defaultStyle tr0
      = (Except.ok (some "images/f.png"),
         { requests := [full_prompt defaultStyle "p"],
           files := [("images/f.png", [0, 137, 80, 78, 71])] }) :=
  C6_first_image_part envOk cfg0 "p" "f" defaultStyle tr0 respWithImage
    cand0 [] [textPart] imagePart [] [137, 80, 78, 71] [0, 137, 80, 78, 71]
    (by decide) rfl rfl rfl (by decide) rfl rfl rfl

/-- C1 is refuted as stated: with a custom prompt supplied, the prompt
text sent outbound is the fixed wrapper of `generate_image` with the
custom prompt embedded, not the custom prompt itself. -/
theorem C1_counterexample :
    (generate_blog_header_image envErr cfg0 "Finnish Greetings" "2026-01-14"
        (some "A red fox") tr0).2.requests
      = [full_prompt defaultStyle "A red fox"]
    ∧ full_prompt defaultStyle "A red fox" ≠ "A red fox" :=
  ⟨rfl, by decide⟩

/-- C1 (amended): a nonempty custom prompt is used verbatim as the
prompt of the core generation call — the synthesized default topic
template is bypassed — and the single outbound request carries the
fixed style wrapper with the custom prompt embedded. -/
theorem C1_custom_prompt_verbatim (env : Env) (cfg : Config)
    (topic date cp : String) (tr : Trace) (hcp : cp ≠ "") :
    generate_blog_header_image env cfg topic date (some cp) tr
      = generate_image env cfg cp (date ++ "-" ++ slugify topic)
          defaultStyle tr
    ∧ (cfg.apiKey ≠ "" →
        (generate_blog_header_image env cfg topic date (some cp) tr).2.requests
          = tr.requests ++ [full_prompt defaultStyle cp]) := by
  have h1 : generate_blog_header_image env cfg topic date (some cp) tr
      = generate_image env cfg cp (date ++ "-" ++ slugify topic)
          defaultStyle tr := by
    simp [generate_blog_header_image, header_prompt, hcp]
  refine ⟨h1, fun h => ?_⟩
  rw [h1]
  have hc := get_client_ok h
  cases hnet : env.net (full_prompt defaultStyle cp) with
  | error e => simp [generate_image, hc, hnet]
  | ok resp =>
    cases hcand : resp.candidates with
    | nil => simp [generate_image, hc, hnet, hcand]
    | cons cand rest =>
      cases hfind : findImagePart cand.content.parts with
      | none => simp [generate_image, hc, hnet, hcand, hfind]
      | some d =>
        cases hdec : env.decode d with
        | error e => simp [generate_image, hc, hnet, hcand, hfind, hdec]
        | ok png =>
          cases hw : env.writeOk with
          | false => simp [generate_image, hc, hnet, hcand, hfind, hdec, hw]
          | true => simp [generate_image, hc, hnet, hcand, hfind, hdec, hw]

/-- Witness for the amended C1 at a concrete custom prompt. -/
theorem C1_custom_prompt_verbatim_witness :
    generate_blog_header_image envErr cfg0 "Finnish Greetings" "2026-01-14"
        (some "A red fox") tr0
      = generate_image envErr cfg0 "A red fox" "2026-01-14-finnish-greetings"
          defaultStyle tr0
    ∧ (generate_blog_header_image envErr cfg0 "Finnish Greetings" "2026-01-14"
        (some "A red fox") tr0).2.requests
      = [full_prompt defaultStyle "A red fox"] := by
  have h := C1_custom_prompt_verbatim envErr cfg0 "Finnish Greetings"
    "2026-01-14" "A red fox" tr0 (by decide)
  exact ⟨h.1, h.2 (by decide)⟩

/-- C2 is refuted as stated: truncation to 30 characters happens after
the strip, so it can cut directly after a hyphen, leaving a trailing
hyphen in the slug. -/
theorem C2_counterexample :
    slugify "aaaaaaaaaaaaaaaaaaaaaaaaaaaaa b"
      = "aaaaaaaaaaaaaaaaaaaaaaaaaaaaa-"
    ∧ (slugify "aaaaaaaaaaaaaaaaaaaaaaaaaaaaa b").data.getLast?
      = some '-' :=
  ⟨rfl, rfl⟩

/-- C2 (amended): every slug consists of lowercase alphanumerics and
hyphens with no two hyphens adjacent, never starts with a hyphen, and
has length at most 30; a trailing hyphen can remain when truncation
cuts after one.  The concrete example of the spec holds. -/
theorem C2_slug_amended (t : String) :
    (∀ c ∈ (slugify t).data, isKept c = true ∨ c = '-')
    ∧ noDoubleHyphen (slugify t).data = true
    ∧ (slugify t).data.head? ≠ some '-'
    ∧ (slugify t).length ≤ 30
    ∧ slugify "Finnish Greetings!!" = "finnish-greetings" :=
  ⟨fun _ hc => slugify_mem t hc, slugify_noDoubleHyphen t, slugify_head t,
   slugify_length t, rfl⟩

/-- Witness for the amended C2 at the spec's concrete topic. -/
theorem C2_slug_amended_witness :
    (isKept 'f' = true ∨ 'f' = '-')
    ∧ (slugify "Finnish Greetings!!").length ≤ 30 :=
  ⟨(C2_slug_amended "Finnish Greetings!!").1 'f' (by decide),
   (C2_slug_amended "Finnish Greetings!!").2.2.2.1⟩

/-- C7: the blog-header call delegates to the core call with filename
stem `{date}-{slug}`; with date `2026-01-14` and topic
`Finnish Greetings` the stem is `2026-01-14-finnish-greetings`. -/
theorem C7_header_stem (env : Env) (cfg : Config) (topic date : String)
    (custom_prompt : Option String) (tr : Trace) :
    generate_blog_header_image env cfg topic date custom_prompt tr
      = generate_image env cfg (header_prompt topic custom_prompt)
          (date ++ "-" ++ slugify topic) defaultStyle tr
    ∧ "2026-01-14" ++ "-" ++ slugify "Finnish Greetings"
      = "2026-01-14-finnish-greetings" :=
  ⟨rfl, rfl⟩

/-- C8: the vocabulary-card call delegates to the core call with
filename stem `{date}-vocab-{word lowercased}` and style
`simple icon illustration`; with word `kiitos` and date `2026-01-14`
the stem is `2026-01-14-vocab-kiitos`. -/
theorem C8_vocab_stem (env : Env) (cfg : Config)
    (finnish_word english_translation date : String) (tr : Trace) :
    generate_vocabulary_card_image env cfg finnish_word english_translation
        date tr
      = generate_image env cfg (vocab_prompt finnish_word english_translation)
          (date ++ "-vocab-" ++ str_lower finnish_word)
          "simple icon illustration" tr
    ∧ "2026-01-14" ++ "-vocab-" ++ str_lower "kiitos"
      = "2026-01-14-vocab-kiitos" :=
  ⟨rfl, rfl⟩

/-- C9: the vocabulary word is embedded in the stem merely lowercased,
never slugified: spaces, punctuation and (lowercase) non-ASCII
characters survive verbatim in the filename, unlike under `slugify`. -/
theorem C9_vocab_word_not_slugified (env : Env) (cfg : Config)
    (finnish_word english_translation date : String) (tr : Trace) :
    generate_vocabulary_card_image env cfg finnish_word english_translation
        date tr
      = generate_image env cfg (vocab_prompt finnish_word english_translation)
          (date ++ "-vocab-" ++ str_lower finnish_word)
          "simple icon illustration" tr
    ∧ "2026-01-14" ++ "-vocab-" ++ str_lower "hyvää päivää!"
      = "2026-01-14-vocab-hyvää päivää!"
    ∧ ' ' ∈ ("2026-01-14-vocab-hyvää päivää!").data
    ∧ '!' ∈ ("2026-01-14-vocab-hyvää päivää!").data
    ∧ 'ä' ∈ ("2026-01-14-vocab-hyvää päivää!").data
    ∧ slugify "hyvää päivää!" = "hyv-p-iv" :=
  ⟨rfl, rfl, by decide, by decide, by decide, rfl⟩

/-- C10: the scan treats a part whose `inline_data` is present but
falsy (absent field / `None` / empty payload) exactly as a non-image
part — removing every such part changes nothing — and a part is
image-bearing precisely when its `inline_data` is present and
non-empty. -/
theorem C10_falsy_inline_data (parts : List Part) :
    findImagePart parts = findImagePart (parts.filter partHasImage)
    ∧ (∀ p : Part, partHasImage p = false ↔
        (p.inline_data = none ∨ p.inline_data = some { data := [] })) := by
  constructor
  · induction parts with
    | nil => rfl
    | cons q qs ih =>
      cases hq : partImageData q with
      | none =>
        have hqf : partHasImage q = false := partHasImage_false_iff.mpr hq
        simp [findImagePart, hq, List.filter_cons, hqf, ih]
      | some d =>
        have hqt : partHasImage q = true := by
          simp [partHasImage, hq]
        simp [findImagePart, hq, List.filter_cons, hqt]
  · intro p
    cases p with
    | mk inline =>
      cases inline with
      | none => simp [partHasImage_false_iff, partImageData]
      | some b =>
        cases b with
        | mk bd =>
          cases bd with
          | nil => simp [partHasImage_false_iff, partImageData]
          | cons x xs => simp [partHasImage_false_iff, partImageData]

end ImageGenerator
